import Mathlib

/-!
# EvalAP — verification of the experiment execution engine

Shallow embedding of the EvalAP API core (`api/endpoints.py`, `api/crud.py`,
`api/schemas.py`) in Lean 4, together with theorems settling the behavioural
claims of the specification.

The persistent relational store is modelled with explicit record types and
list-valued relationships; SQLAlchemy sessions become explicit state passing;
functions that raise `SchemaError` return `Except String`.
-/

namespace EvalAP

/-! ## Data model (api/schemas.py, api/models.py ORM rows) -/

/-- `ExperimentStatus` enum (api/schemas.py). -/
inductive ExperimentStatus
  | pending
  | running_answers
  | running_metrics
  | finished
deriving DecidableEq, Repr

/-- `MetricStatus` enum (api/schemas.py). -/
inductive MetricStatus
  | pending
  | running
  | finished
deriving DecidableEq, Repr

/-- A `Dataset` row: name and the derived column flags and row count
(api/schemas.py `DatasetCreate.to_table_init`). -/
structure Dataset where
  id : Nat
  name : String
  has_query : Bool
  has_output : Bool
  has_output_true : Bool
  size : Nat
deriving DecidableEq, Repr

/-- A `Model` row (endpoint descriptor); only the fields the claims need. -/
structure ModelRow where
  id : Nat
  name : String
deriving DecidableEq, Repr

/-- An `Observation` row, keyed by (result_id, num_line). -/
structure ObservationRow where
  result_id : Nat
  num_line : Nat
  score : Option Int
deriving DecidableEq, Repr

/-- A `Result` row: one per (experiment, metric_name) pair, with its
observation relationship. -/
structure ResultRow where
  id : Nat
  experiment_id : Nat
  metric_name : String
  metric_status : MetricStatus
  num_try : Nat
  num_success : Nat
  observations : List ObservationRow
deriving DecidableEq, Repr

/-- An `Experiment` row with its `dataset`, optional `model` and `results`
relationships. -/
structure Experiment where
  id : Nat
  name : String
  readme : Option String
  experiment_set_id : Option Nat
  dataset_id : Nat
  dataset : Dataset
  model : Option ModelRow
  experiment_status : ExperimentStatus
  num_try : Nat
  num_success : Nat
  results : List ResultRow
deriving DecidableEq, Repr

/-- The metric registry, reduced to what the claims consult: the map
`metric_name → requirement set` (`metric_registry.get_metric(name).require`). -/
def MetricRegistry : Type := String → List String

/-! ## Phase selection (api/endpoints.py) -/

/-- The two dispatch phases of `dispatch_tasks`. -/
inductive Phase
  | answers
  | observations
deriving DecidableEq, Repr

/-- `_needs_output` (api/endpoints.py:19-22): the dataset lacks an `output`
column and some requested metric requires `output`. -/
def needs_output (mr : MetricRegistry) (e : Experiment) : Bool :=
  !e.dataset.has_output &&
    e.results.any (fun r => decide ("output" ∈ mr r.metric_name))

/-- The phase chosen by `create_experiment` (api/endpoints.py:92-107):
answers when `_needs_output`, observations otherwise. -/
def create_experiment_dispatch_phase (mr : MetricRegistry) (e : Experiment) : Phase :=
  if needs_output mr e then Phase.answers else Phase.observations

/-- The per-member dispatches performed by `create_experimentset`
(api/endpoints.py:217-226): each member experiment gets the same
`_needs_output` phase choice. -/
def create_experimentset_dispatches (mr : MetricRegistry) (exps : List Experiment) :
    List (Nat × Phase) :=
  exps.map (fun e => (e.id, create_experiment_dispatch_phase mr e))

/-! ## Retry planner (api/endpoints.py `retry_runs`) -/

/-- `RetryRuns` schema: the ids selected for redispatch. -/
structure RetryRuns where
  experiment_ids : List Nat
  result_ids : List Nat
deriving DecidableEq, Repr

/-- `retry_runs` selection loop (api/endpoints.py:309-331): walk the set's
experiments; skip non-finished ones; a finished experiment with
`num_try != num_success` that `_needs_output` is enqueued for the answer
phase; otherwise its finished results with `num_try != num_success` are
enqueued for the observation phase. -/
def retry_runs_step (mr : MetricRegistry) (rr : RetryRuns) (exp : Experiment) : RetryRuns :=
  if exp.experiment_status ≠ ExperimentStatus.finished then rr
  else if exp.num_try ≠ exp.num_success ∧ needs_output mr exp then
    { rr with experiment_ids := rr.experiment_ids ++ [exp.id] }
  else
    { rr with result_ids := rr.result_ids ++
        ((exp.results.filter (fun r =>
            decide (r.metric_status = MetricStatus.finished ∧ r.num_try ≠ r.num_success))).map
          (fun r => r.id)) }

/-- `retry_runs` accumulation over the set's experiments (api/endpoints.py:314-330). -/
def retry_runs_select (mr : MetricRegistry) (exps : List Experiment) : RetryRuns :=
  exps.foldl (retry_runs_step mr) ⟨[], []⟩

/-- Spec-side predicate: a finished experiment whose answer phase is
incomplete and which needed model output. -/
def expNeedsAnswerRetry (mr : MetricRegistry) (e : Experiment) : Prop :=
  e.experiment_status = ExperimentStatus.finished ∧
    (e.num_try ≠ e.num_success ∧ needs_output mr e)

instance (mr : MetricRegistry) (e : Experiment) : Decidable (expNeedsAnswerRetry mr e) := by
  unfold expNeedsAnswerRetry; infer_instance

/-- Spec-side predicate: a finished experiment that is not selected for
answer-phase retry (its results are examined instead). -/
def expScansResults (mr : MetricRegistry) (e : Experiment) : Prop :=
  e.experiment_status = ExperimentStatus.finished ∧
    ¬(e.num_try ≠ e.num_success ∧ needs_output mr e)

instance (mr : MetricRegistry) (e : Experiment) : Decidable (expScansResults mr e) := by
  unfold expScansResults; infer_instance

/-- Spec-side predicate: a finished result with missing successes. -/
def resultNeedsRetry (r : ResultRow) : Prop :=
  r.metric_status = MetricStatus.finished ∧ r.num_try ≠ r.num_success

instance (r : ResultRow) : Decidable (resultNeedsRetry r) := by
  unfold resultNeedsRetry; infer_instance

/-! ## Upsert protocol (api/crud.py `upsert_answer`, `upsert_observation`)

A stored Answer/Observation row is modelled as an attribute map
`String → Option α` (a column name to its value, `none` when unset), the
field dict passed to the upsert as an association list, and the table as a
map from its uniqueness key to an optional row. -/

/-- The `setattr` loop `for k, v in fields.items(): setattr(row, k, v)`:
apply each named field to the row in order. -/
def applyFields {α : Type} (row : String → Option α) (fields : List (String × α)) :
    String → Option α :=
  fields.foldl (fun r kv => fun attr => if attr = kv.1 then some kv.2 else r attr) row

/-- A fresh ORM row `models.Answer(experiment_id=…, num_line=…, **fields)`:
all columns unset, then the named fields applied. -/
def freshRow {α : Type} (fields : List (String × α)) : String → Option α :=
  applyFields (fun _ => none) fields

/-- `upsert_answer` (api/crud.py:299-316): select the Answer row by
(experiment_id, num_line); update its named fields when present, insert a
fresh row otherwise. -/
def upsert_answer {α : Type} (db : Nat × Nat → Option (String → Option α))
    (experiment_id num_line : Nat) (answer : List (String × α)) :
    Nat × Nat → Option (String → Option α) :=
  fun k =>
    if k = (experiment_id, num_line) then
      match db (experiment_id, num_line) with
      | some row => some (applyFields row answer)
      | none => some (freshRow answer)
    else db k

/-- `upsert_observation` (api/crud.py:319-340): same contract keyed by
(result_id, num_line). -/
def upsert_observation {α : Type} (db : Nat × Nat → Option (String → Option α))
    (result_id num_line : Nat) (observation : List (String × α)) :
    Nat × Nat → Option (String → Option α) :=
  fun k =>
    if k = (result_id, num_line) then
      match db (result_id, num_line) with
      | some row => some (applyFields row observation)
      | none => some (freshRow observation)
    else db k

/-- The last value the field dict assigns to an attribute, if any. -/
def lastVal {α : Type} : List (String × α) → String → Option α
  | [], _ => none
  | kv :: t, attr =>
    match lastVal t attr with
    | some v => some v
    | none => if kv.1 = attr then some kv.2 else none

/-! ## Experiment creation and validation (api/schemas.py `ExperimentCreate.to_table_init`,
api/endpoints.py `create_experiment`, api/crud.py) -/

/-- The persistent store, restricted to the tables the claims touch. -/
structure Store where
  datasets : List Dataset
  experiments : List Experiment
  next_id : Nat
deriving DecidableEq, Repr

/-- An `ExperimentCreate` request with its dataset already resolved (the
by-name lookup / inline creation of api/schemas.py:217-223). -/
structure ExperimentCreateS where
  name : String
  readme : Option String
  experiment_set_id : Option Nat
  metrics : List String
  dataset : Dataset
  model : Option ModelRow
deriving DecidableEq, Repr

/-- `ExperimentCreate.to_table_init` (api/schemas.py:213-264): build the
pending Results, validate metric/dataset/model compatibility in source order,
and return the pending experiment row; a violation raises `SchemaError`. -/
def experiment_to_table_init (mr : MetricRegistry) (ec : ExperimentCreateS) :
    Except String Experiment :=
  let results := ec.metrics.map (fun m =>
    { id := 0, experiment_id := 0, metric_name := m, metric_status := MetricStatus.pending,
      num_try := 0, num_success := 0, observations := [] : ResultRow })
  let needs_query := ec.metrics.any (fun m => decide ("query" ∈ mr m))
  let needs_output_b := ec.metrics.any (fun m => decide ("output" ∈ mr m))
  let needs_output_true := ec.metrics.any (fun m => decide ("output_true" ∈ mr m))
  if needs_query && !ec.dataset.has_query then
    Except.error "You need to provide a query for this metric. "
  else if needs_output_b && ec.model.isNone && !ec.dataset.has_output then
    Except.error ("You need to provide an answer for this metric. " ++
      "Either set a model to generate it or provide a dataset with the 'output' field.")
  else if needs_output_b && !ec.dataset.has_output && !ec.dataset.has_query then
    Except.error ("You need to provide an answer for this metric. " ++
      "Either provide a dataset with the 'query' field to generate the answer or with an 'output' field if have generated it yourself.")
  else if needs_output_true && !ec.dataset.has_output_true then
    Except.error ("You need to provide a ground truth for this metric. " ++
      "Your dataset needs to have an 'output_true' field.")
  else if ec.dataset.has_output && ec.model.isSome then
    Except.error ("You can't give at the same time a model and a dataset with an answer ('output' column). " ++
      "Gives either one or the other.")
  else
    Except.ok
      { id := 0, name := ec.name, readme := ec.readme,
        experiment_set_id := ec.experiment_set_id, dataset_id := ec.dataset.id,
        dataset := ec.dataset, model := ec.model,
        experiment_status := ExperimentStatus.pending, num_try := 0, num_success := 0,
        results := results }

/-- `crud.create_experiment` (api/crud.py:159-167): run `to_table_init`, then
add and commit the new row with a fresh id. -/
def crud_create_experiment (mr : MetricRegistry) (store : Store) (ec : ExperimentCreateS) :
    Except String (Store × Experiment) :=
  match experiment_to_table_init mr ec with
  | Except.error msg => Except.error msg
  | Except.ok init =>
    let exp := { init with id := store.next_id }
    Except.ok
      ({ store with experiments := store.experiments ++ [exp], next_id := store.next_id + 1 },
       exp)

/-- The POST /experiment handler (api/endpoints.py:92-107): create the
experiment then dispatch the `_needs_output` phase; a `SchemaError` becomes a
400 response leaving the store untouched and nothing dispatched. Returns the
resulting store, the dispatched (experiment id, phase) tasks and the error
message, if any. -/
def create_experiment_endpoint (mr : MetricRegistry) (store : Store)
    (ec : ExperimentCreateS) : Store × List (Nat × Phase) × Option String :=
  match crud_create_experiment mr store ec with
  | Except.error msg => (store, [], some msg)
  | Except.ok (store2, exp) =>
    (store2, [(exp.id, create_experiment_dispatch_phase mr exp)], none)

/-! ## Experiment-set creation from a grid (api/schemas.py
`ExperimentSetCreate.to_table_init`) -/

/-- The generated member name `f"{set_name}__{i}"`. -/
def expName (setName : String) (i : Nat) : String :=
  setName ++ "__" ++ Nat.repr i

/-- Modelled from the spec: `build_param_grid` (api/utils.py, not under src/)
— "a common-parameters mapping plus a grid-parameters mapping (key → list of
values)"; the result enumerates one parameter assignment per point of the
Cartesian product of the grid value lists, each merged with the common
parameters. -/
def build_param_grid {V : Type} (common : List (String × V))
    (grid : List (String × List V)) : List (List (String × V)) :=
  grid.foldr (fun kv acc => kv.2.flatMap (fun v => acc.map (fun pt => (kv.1, v) :: pt)))
    [common]

/-- The cv branch of `ExperimentSetCreate.to_table_init` (api/schemas.py:
340-348): walk the grid points, `repeat` times each, naming the experiment
`{set_name}__{i}` with a running counter; the fold state is the Python
`(i, experiments)` pair. -/
def cv_experiments {P : Type} (setName : String) (points : List P) (rep : Nat) :
    Nat × List (String × P) :=
  points.foldl
    (fun st p =>
      (List.range rep).foldl (fun st2 _ => (st2.1 + 1, st2.2 ++ [(expName setName st2.1, p)]))
        st)
    (0, [])

/-- The experiment list produced for a grid-based experiment set. -/
def experimentset_cv_table_init {V : Type} (setName : String)
    (common : List (String × V)) (grid : List (String × List V)) (rep : Nat) :
    List (String × List (String × V)) :=
  (cv_experiments setName (build_param_grid common grid) rep).2

/-- Closed form of `cv_experiments`: the named segments, point by point. -/
def gridSpec {P : Type} (setName : String) (rep : Nat) : List P → Nat → List (String × P)
  | [], _ => []
  | p :: t, i =>
    (List.range rep).map (fun j => (expName setName (i + j), p)) ++ gridSpec setName rep t (i + rep)

/-! ## Update operations (api/crud.py `update_dataset`, `update_result`,
`update_experiment`, `update_experimentset`)

Each update schema has every field optional; the crud functions iterate the
patch's fields and `setattr` only the non-None ones. The patches are modelled
as records of `Option` fields, `none` meaning the field is skipped. -/

/-- `DatasetUpdate` patch (every field of the Dataset schema, optional). -/
structure DatasetUpdateS where
  id : Option Nat := none
  name : Option String := none
  has_query : Option Bool := none
  has_output : Option Bool := none
  has_output_true : Option Bool := none
  size : Option Nat := none
deriving DecidableEq, Repr

/-- `update_dataset` (api/crud.py:36-50): `setattr` each non-None patch
field. -/
def update_dataset (d : Dataset) (p : DatasetUpdateS) : Dataset :=
  let d := match p.id with | some v => { d with id := v } | none => d
  let d := match p.name with | some v => { d with name := v } | none => d
  let d := match p.has_query with | some v => { d with has_query := v } | none => d
  let d := match p.has_output with | some v => { d with has_output := v } | none => d
  let d := match p.has_output_true with | some v => { d with has_output_true := v } | none => d
  match p.size with | some v => { d with size := v } | none => d

/-- `ResultUpdate` patch. -/
structure ResultUpdateS where
  metric_name : Option String := none
  metric_status : Option MetricStatus := none
  num_try : Option Nat := none
  num_success : Option Nat := none
deriving DecidableEq, Repr

/-- `update_result` (api/crud.py:137-151): `setattr` each non-None patch
field. -/
def update_result (r : ResultRow) (p : ResultUpdateS) : ResultRow :=
  let r := match p.metric_name with | some v => { r with metric_name := v } | none => r
  let r := match p.metric_status with | some v => { r with metric_status := v } | none => r
  let r := match p.num_try with | some v => { r with num_try := v } | none => r
  match p.num_success with | some v => { r with num_success := v } | none => r

/-- `ExperimentUpdate` patch (the fields the claims touch). -/
structure ExperimentUpdateS where
  name : Option String := none
  readme : Option String := none
  experiment_status : Option ExperimentStatus := none
  num_try : Option Nat := none
  num_success : Option Nat := none
deriving DecidableEq, Repr

/-- `update_experiment` (api/crud.py:196-214): `setattr` each non-None patch
field; when the patch sets `experiment_status` to finished, every owned
Result's `metric_status` is set to finished as well. -/
def update_experiment (exp : Experiment) (p : ExperimentUpdateS) : Experiment :=
  let e1 := match p.name with | some v => { exp with name := v } | none => exp
  let e2 := match p.readme with | some v => { e1 with readme := some v } | none => e1
  let e3 := match p.experiment_status with
    | some v =>
      let eS := { e2 with experiment_status := v }
      if v = ExperimentStatus.finished then
        { eS with results :=
            eS.results.map (fun r => { r with metric_status := MetricStatus.finished }) }
      else eS
    | none => e2
  let e4 := match p.num_try with | some v => { e3 with num_try := v } | none => e3
  match p.num_success with | some v => { e4 with num_success := v } | none => e4

/-- An `ExperimentSet` row. -/
structure ExperimentSetRow where
  id : Nat
  name : String
  readme : Option String
  experiments : List Experiment
deriving DecidableEq, Repr

/-- `ExperimentSetUpdate` patch. -/
structure ExperimentSetUpdateS where
  name : Option String := none
  readme : Option String := none
deriving DecidableEq, Repr

/-- `update_experimentset` (api/crud.py:265-279): `setattr` each non-None
patch field. -/
def update_experimentset (s : ExperimentSetRow) (p : ExperimentSetUpdateS) : ExperimentSetRow :=
  let s := match p.name with | some v => { s with name := v } | none => s
  match p.readme with | some v => { s with readme := some v } | none => s

/-! ## Dataset removal (api/crud.py `remove_dataset`) -/

/-- The exact `SchemaError` message raised when the dataset is still
referenced by `n` experiments. -/
def linkedDatasetMsg (n : Nat) : String :=
  "This dataset is linked to " ++ Nat.repr n ++ " experiments.\n" ++
    "You must either delete linked experiments or associated them to another dataset to remove this one."

/-- `remove_dataset` (api/crud.py:53-72): count the experiments referencing
the dataset; a positive count raises a `SchemaError` carrying it; otherwise
the row is deleted when present (`True`) or reported missing (`False`). -/
def remove_dataset (store : Store) (dataset_id : Nat) : Except String (Store × Bool) :=
  let linked_experiments :=
    (store.experiments.filter (fun e => e.dataset_id = dataset_id)).length
  if linked_experiments > 0 then
    Except.error (linkedDatasetMsg linked_experiments)
  else
    match store.datasets.find? (fun d => d.id = dataset_id) with
    | none => Except.ok (store, false)
    | some _ =>
      Except.ok
        ({ store with datasets := store.datasets.filter (fun d => ¬d.id = dataset_id) }, true)

/-- The session-level outcome of `remove_dataset`: a raised `SchemaError`
aborts the request before any delete is committed, so the store is returned
unchanged alongside the error. -/
def run_remove_dataset (store : Store) (dataset_id : Nat) : Store × Except String Bool :=
  match remove_dataset store dataset_id with
  | Except.error msg => (store, Except.error msg)
  | Except.ok (store2, b) => (store2, Except.ok b)

/-! ## Appending experiments to an experiment set
(api/endpoints.py `patch_experimentset`)

The endpoint renames an appended experiment whose name matches `__\d+$` by
`parts = name.split("__"); parts[-1] = str(int(parts[-1]) + len(existing))`,
replacing a leading `None` part by the set name, then joining with `__`. -/

/-- Python `name.split("__")` over the character list: scan left to right,
cutting at each (leftmost, non-overlapping) occurrence of `__`. -/
def splitUnderscore : List Char → List (List Char)
  | [] => [[]]
  | '_' :: '_' :: rest => [] :: splitUnderscore rest
  | c :: rest =>
    match splitUnderscore rest with
    | [] => [[c]]
    | p :: ps => (c :: p) :: ps

/-- `name.split("__")` at the string level. -/
def splitName (s : String) : List String :=
  (splitUnderscore s.data).map (fun l => l.asString)

/-- Python `"__".join(parts)`. -/
def joinUnderscore : List String → String
  | [] => ""
  | [p] => p
  | p :: ps => p ++ "__" ++ joinUnderscore ps

/-- Python `int(...)` on a string of decimal digits. -/
def decDigitsVal (l : List Char) : Nat :=
  l.foldl (fun acc c => acc * 10 + (c.toNat - '0'.toNat)) 0

/-- The numeric suffix `re.search(r"__\d+$", name)` extracts: defined when
the split has at least two parts and the last part is a nonempty digit
string. -/
def nameSuffix (s : String) : Option Nat :=
  let parts := splitName s
  if 2 ≤ parts.length ∧ parts.getLast! ≠ "" ∧ parts.getLast!.data.all Char.isDigit then
    some (decDigitsVal parts.getLast!.data)
  else none

/-- The rename of one appended experiment (api/endpoints.py:253-258): bump
the trailing numeric suffix by the number of experiments already in the set,
substituting the set name for a literal `None` head part. -/
def bumpExperimentName (setName : String) (numExisting : Nat) (name : String) : String :=
  let parts := splitName name
  if 2 ≤ parts.length ∧ parts.getLast! ≠ "" ∧ parts.getLast!.data.all Char.isDigit then
    let newLast := Nat.repr (decDigitsVal parts.getLast!.data + numExisting)
    let parts2 := parts.dropLast ++ [newLast]
    let parts3 := if parts2.head? = some "None" then setName :: parts2.tail else parts2
    joinUnderscore parts3
  else name

/-- The appending loop of `patch_experimentset` (api/endpoints.py:249-263):
each appended experiment is renamed against the number of experiments in the
set at that iteration and then created, growing the set. Returns the final
name list of the set. -/
def patch_experimentset_names (setName : String) (existing : List String)
    (appended : List String) : List String :=
  appended.foldl (fun st a => st ++ [bumpExperimentName setName st.length a]) existing

/-! ## Leaderboard (api/crud.py `get_leaderboard`,
api/endpoints.py `read_leaderboard`) -/

/-- One leaderboard entry (the fields built in api/crud.py:400-408). -/
structure LeaderboardEntry where
  experiment_id : Nat
  model_name : String
  dataset_name : String
  main_metric_score : Option Int
deriving DecidableEq, Repr

/-- The leaderboard response. -/
structure Leaderboard where
  entries : List LeaderboardEntry
deriving DecidableEq, Repr

/-- Descending order on the main score used by `order_by(desc(...))`;
missing scores sort last. -/
def scoreGE (a b : Option Int) : Bool :=
  match a, b with
  | none, none => true
  | none, some _ => false
  | some _, none => true
  | some x, some y => decide (y ≤ x)

def lbRel (x y : LeaderboardEntry) : Prop :=
  scoreGE x.main_metric_score y.main_metric_score = true

instance : DecidableRel lbRel := fun x y => by
  unfold lbRel; infer_instance

/-- SQL `max` over the non-null scores of the joined rows. -/
def maxScore (l : List Int) : Option Int :=
  l.foldl (fun acc x => match acc with | none => some x | some m => some (max m x)) none

/-- The Result × Observation join rows of one experiment for the given
metric. -/
def metric_observation_rows (e : Experiment) (metric_name : String) : List ObservationRow :=
  (e.results.filter (fun r => r.metric_name = metric_name)).flatMap (fun r => r.observations)

/-- The `main_metric_subquery` of api/crud.py:352-360: `none` when the
experiment has no (Result, Observation) row for the metric, otherwise the
max score (itself `none` when every score is null). -/
def main_metric_subquery (e : Experiment) (metric_name : String) : Option (Option Int) :=
  let rows := metric_observation_rows e metric_name
  if rows.isEmpty then none else some (maxScore (rows.filterMap (fun o => o.score)))

/-- `get_leaderboard` (api/crud.py:348-411): inner-join each experiment with
its Model, Dataset and main-metric score, filter by dataset name when one is
supplied (`if dataset_name:` is a Python truthiness test, so a `None` or
empty-string dataset name skips the filter), sort by descending main score
and truncate to `limit`. -/
def get_leaderboard (store : Store) (metric_name : String) (dataset_name : Option String)
    (limit : Nat) : Leaderboard :=
  let cands := store.experiments.filterMap (fun e =>
    match e.model, main_metric_subquery e metric_name with
    | some m, some ms =>
      some { experiment_id := e.id, model_name := m.name, dataset_name := e.dataset.name,
             main_metric_score := ms : LeaderboardEntry }
    | _, _ => none)
  let cands2 :=
    match dataset_name with
    | some dn =>
      if dn = "" then cands else cands.filter (fun c => c.dataset_name = dn)
    | none => cands
  ⟨(List.insertionSort lbRel cands2).take limit⟩

/-- The GET /leaderboard handler (api/endpoints.py:339-345): its query
parameters are `metric_name` and `limit` only; `crud.get_leaderboard` is
called without a dataset name. -/
def read_leaderboard (store : Store) (metric_name : String) (limit : Nat) : Leaderboard :=
  get_leaderboard store metric_name none limit

/-- A concrete store with two ranked experiments on datasets "A" and "B". -/
def lbStore : Store :=
  ⟨[⟨1, "A", true, true, false, 1⟩, ⟨2, "B", true, true, false, 1⟩],
   [⟨1, "ea", none, none, 1, ⟨1, "A", true, true, false, 1⟩, some ⟨1, "m1"⟩,
      ExperimentStatus.finished, 1, 1,
      [⟨1, 1, "m", MetricStatus.finished, 1, 1, [⟨1, 0, some 5⟩]⟩]⟩,
    ⟨2, "eb", none, none, 2, ⟨2, "B", true, true, false, 1⟩, some ⟨2, "m2"⟩,
      ExperimentStatus.finished, 1, 1,
      [⟨2, 2, "m", MetricStatus.finished, 1, 1, [⟨2, 0, some 3⟩]⟩]⟩],
   3⟩

/-! ## Theorems -/

/-! ## Theorems for C1 and C2 -/

/-- C1: for every experiment created via POST /experiment (and for every member
experiment of a created experiment set), the answer phase is dispatched if and
only if some requested metric's requirement set contains "output" and the
dataset's `has_output` is false; otherwise the observation phase is dispatched
directly, and experiment-set members are dispatched by the same rule. -/
theorem c1_phase_selection (mr : MetricRegistry) (e : Experiment) :
    (create_experiment_dispatch_phase mr e = Phase.answers ↔
      (e.dataset.has_output = false ∧ ∃ r ∈ e.results, "output" ∈ mr r.metric_name)) ∧
    (create_experiment_dispatch_phase mr e = Phase.observations ↔
      ¬(e.dataset.has_output = false ∧ ∃ r ∈ e.results, "output" ∈ mr r.metric_name)) ∧
    (∀ exps : List Experiment,
      create_experimentset_dispatches mr exps =
        exps.map (fun e2 => (e2.id, create_experiment_dispatch_phase mr e2))) := by
  have hiff : needs_output mr e = true ↔
      (e.dataset.has_output = false ∧ ∃ r ∈ e.results, "output" ∈ mr r.metric_name) := by
    simp [needs_output, List.any_eq_true, Bool.and_eq_true, Bool.not_eq_true']
  refine ⟨?_, ?_, fun exps => rfl⟩
  · rw [← hiff]
    unfold create_experiment_dispatch_phase
    by_cases h : needs_output mr e = true
    · simp [h]
    · simp [h]
  · rw [← hiff]
    unfold create_experiment_dispatch_phase
    by_cases h : needs_output mr e = true
    · simp [h]
    · simp [h]

lemma retry_runs_foldl (mr : MetricRegistry) :
    ∀ (l : List Experiment) (a b : List Nat),
      l.foldl (retry_runs_step mr) ⟨a, b⟩ =
        ⟨a ++ (l.filter (fun e => decide (expNeedsAnswerRetry mr e))).map (fun e => e.id),
         b ++ (l.filter (fun e => decide (expScansResults mr e))).flatMap
            (fun e => (e.results.filter (fun r => decide (resultNeedsRetry r))).map
              (fun r => r.id))⟩ := by
  intro l
  induction l with
  | nil => intro a b; simp
  | cons e t ih =>
    intro a b
    simp only [List.foldl_cons]
    by_cases h1 : e.experiment_status = ExperimentStatus.finished
    · by_cases h2 : e.num_try ≠ e.num_success ∧ needs_output mr e = true
      · have hstep : retry_runs_step mr ⟨a, b⟩ e = ⟨a ++ [e.id], b⟩ := by
          simp [retry_runs_step, h1, h2]
        rw [hstep, ih]
        simp [expNeedsAnswerRetry, expScansResults, h1, h2, List.filter_cons]
      · have hstep : retry_runs_step mr ⟨a, b⟩ e =
            ⟨a, b ++ ((e.results.filter (fun r => decide (resultNeedsRetry r))).map
              (fun r => r.id))⟩ := by
          simp [retry_runs_step, h1, h2, resultNeedsRetry]
        have h2' : e.num_try = e.num_success ∨ needs_output mr e = false := by
          by_cases hnt : e.num_try = e.num_success
          · exact Or.inl hnt
          · right
            cases hb : needs_output mr e
            · rfl
            · exact absurd ⟨hnt, hb⟩ h2
        rw [hstep, ih]
        simp [expNeedsAnswerRetry, expScansResults, h1, h2, h2', List.filter_cons]
    · have hstep : retry_runs_step mr ⟨a, b⟩ e = ⟨a, b⟩ := by
        simp [retry_runs_step, h1]
      rw [hstep, ih]
      simp [expNeedsAnswerRetry, expScansResults, h1, List.filter_cons]

/-- C2: the retry endpoint selects, among the set's experiments with status
finished, exactly those with `num_try ≠ num_success` that needed model output
(answer-phase redispatch); for every other finished experiment, exactly its
Results that are finished with `num_try ≠ num_success` (observation-phase
redispatch); non-finished experiments contribute nothing. -/
theorem c2_retry_selection (mr : MetricRegistry) (exps : List Experiment) :
    retry_runs_select mr exps =
      ⟨(exps.filter (fun e => decide (expNeedsAnswerRetry mr e))).map (fun e => e.id),
       (exps.filter (fun e => decide (expScansResults mr e))).flatMap
          (fun e => (e.results.filter (fun r => decide (resultNeedsRetry r))).map
            (fun r => r.id))⟩ := by
  simpa [retry_runs_select] using retry_runs_foldl mr exps [] []

lemma applyFields_eq {α : Type} (fields : List (String × α)) :
    ∀ (row : String → Option α) (attr : String),
      applyFields row fields attr = (lastVal fields attr).or (row attr) := by
  induction fields with
  | nil => intro row attr; simp [applyFields, lastVal]
  | cons kv t ih =>
    intro row attr
    have : applyFields row (kv :: t) =
        applyFields (fun a => if a = kv.1 then some kv.2 else row a) t := by
      simp [applyFields, List.foldl_cons]
    rw [this, ih]
    cases h : lastVal t attr with
    | some v => simp [lastVal, h]
    | none =>
      by_cases hk : kv.1 = attr
      · simp [lastVal, h, hk]
      · have hk' : ¬attr = kv.1 := fun he => hk he.symm
        simp [lastVal, h, hk, hk']

lemma applyFields_idem {α : Type} (row : String → Option α) (fields : List (String × α)) :
    applyFields (applyFields row fields) fields = applyFields row fields := by
  funext attr
  rw [applyFields_eq, applyFields_eq]
  cases h : lastVal fields attr <;> simp [Option.or]

lemma upsert_answer_idem {α : Type} (db : Nat × Nat → Option (String → Option α))
    (e n : Nat) (f : List (String × α)) :
    upsert_answer (upsert_answer db e n f) e n f = upsert_answer db e n f := by
  funext k
  by_cases hk : k = (e, n)
  · subst hk
    simp only [upsert_answer, if_pos rfl]
    cases h : db (e, n) with
    | some row => simp [h, applyFields_idem]
    | none => simp [h, freshRow, applyFields_idem]
  · simp [upsert_answer, hk]

lemma upsert_observation_idem {α : Type} (db : Nat × Nat → Option (String → Option α))
    (rid n : Nat) (f : List (String × α)) :
    upsert_observation (upsert_observation db rid n f) rid n f =
      upsert_observation db rid n f := by
  funext k
  by_cases hk : k = (rid, n)
  · subst hk
    simp only [upsert_observation, if_pos rfl]
    cases h : db (rid, n) with
    | some row => simp [h, applyFields_idem]
    | none => simp [h, freshRow, applyFields_idem]
  · simp [upsert_observation, hk]

/-- C3: `upsert_answer` inserts a fresh row when the (experiment_id, num_line)
key is absent, otherwise overwrites only the named fields of the existing row,
leaves every other key untouched, and is idempotent; `upsert_observation`
behaves the same keyed by (result_id, num_line). -/
theorem c3_upsert_contract {α : Type} (db : Nat × Nat → Option (String → Option α))
    (e n : Nat) (f : List (String × α)) :
    (db (e, n) = none → upsert_answer db e n f (e, n) = some (freshRow f)) ∧
    (∀ row, db (e, n) = some row →
      upsert_answer db e n f (e, n) = some (applyFields row f)) ∧
    (∀ k, k ≠ (e, n) → upsert_answer db e n f k = db k) ∧
    upsert_answer (upsert_answer db e n f) e n f = upsert_answer db e n f ∧
    (db (e, n) = none → upsert_observation db e n f (e, n) = some (freshRow f)) ∧
    (∀ row, db (e, n) = some row →
      upsert_observation db e n f (e, n) = some (applyFields row f)) ∧
    (∀ k, k ≠ (e, n) → upsert_observation db e n f k = db k) ∧
    upsert_observation (upsert_observation db e n f) e n f =
      upsert_observation db e n f := by
  refine ⟨?_, ?_, ?_, upsert_answer_idem db e n f, ?_, ?_, ?_,
    upsert_observation_idem db e n f⟩
  · intro h; simp [upsert_answer, h]
  · intro row h; simp [upsert_answer, h]
  · intro k hk; simp [upsert_answer, hk]
  · intro h; simp [upsert_observation, h]
  · intro row h; simp [upsert_observation, h]
  · intro k hk; simp [upsert_observation, hk]

/-- Witness for C3 at a concrete table: the empty table, key (1, 0) and field
dict `[("answer", "hello")]`. -/
theorem c3_witness :
    ((fun _ => none : Nat × Nat → Option (String → Option String)) (1, 0) = none) ∧
    upsert_answer (fun _ => none) 1 0 [("answer", "hello")] (1, 0) =
      some (freshRow [("answer", "hello")]) ∧
    ((2, 0) ≠ ((1 : Nat), (0 : Nat)) ∧
      upsert_answer (fun _ => none) 1 0 [("answer", "hello")] (2, 0) =
        (none : Option (String → Option String))) := by
  have h := c3_upsert_contract (fun _ => none : Nat × Nat → Option (String → Option String))
    1 0 [("answer", "hello")]
  refine ⟨rfl, h.1 rfl, by decide, h.2.2.1 (2, 0) (by decide)⟩

/-- C4: an experiment-creation request that violates metric/dataset
compatibility — in particular a Model together with a dataset whose
`has_output` is true, or a metric requiring "output_true" on a dataset
without it — yields a schema error, the store is unchanged (no Experiment or
Result is persisted) and no task is dispatched. -/
theorem c4_validation_rejects (mr : MetricRegistry) (store : Store)
    (ec : ExperimentCreateS)
    (hviol : (ec.model.isSome = true ∧ ec.dataset.has_output = true) ∨
      ((∃ m ∈ ec.metrics, "output_true" ∈ mr m) ∧ ec.dataset.has_output_true = false)) :
    ∃ msg, create_experiment_endpoint mr store ec = (store, [], some msg) := by
  have herr : ∃ msg, experiment_to_table_init mr ec = Except.error msg := by
    simp only [experiment_to_table_init]
    by_cases h1 :
        (ec.metrics.any (fun m => decide ("query" ∈ mr m)) && !ec.dataset.has_query) = true
    · rw [if_pos h1]; exact ⟨_, rfl⟩
    · rw [if_neg h1]
      by_cases h2 : (ec.metrics.any (fun m => decide ("output" ∈ mr m)) &&
          ec.model.isNone && !ec.dataset.has_output) = true
      · rw [if_pos h2]; exact ⟨_, rfl⟩
      · rw [if_neg h2]
        by_cases h3 : (ec.metrics.any (fun m => decide ("output" ∈ mr m)) &&
            !ec.dataset.has_output && !ec.dataset.has_query) = true
        · rw [if_pos h3]; exact ⟨_, rfl⟩
        · rw [if_neg h3]
          by_cases h4 : (ec.metrics.any (fun m => decide ("output_true" ∈ mr m)) &&
              !ec.dataset.has_output_true) = true
          · rw [if_pos h4]; exact ⟨_, rfl⟩
          · rw [if_neg h4]
            have h5 : (ec.dataset.has_output && ec.model.isSome) = true := by
              rcases hviol with ⟨hm, hd⟩ | ⟨hm, hd⟩
              · simp [hd, hm]
              · exfalso
                apply h4
                have hany : ec.metrics.any (fun m => decide ("output_true" ∈ mr m)) = true := by
                  simp only [List.any_eq_true, decide_eq_true_eq]
                  exact hm
                simp [hany, hd]
            rw [if_pos h5]; exact ⟨_, rfl⟩
  obtain ⟨msg, hmsg⟩ := herr
  refine ⟨msg, ?_⟩
  unfold create_experiment_endpoint crud_create_experiment
  rw [hmsg]

/-- Witness for C4: a request pairing a metric that requires "output_true"
with a dataset lacking that column is rejected with the store untouched. -/
theorem c4_witness :
    ∃ msg,
      create_experiment_endpoint (fun _ => ["output_true"])
        ⟨[], [], 5⟩
        ⟨"exp", none, none, ["judge_exactness"],
          ⟨1, "d", true, false, false, 3⟩, none⟩ =
        (⟨[], [], 5⟩, [], some msg) :=
  c4_validation_rejects (fun _ => ["output_true"]) ⟨[], [], 5⟩
    ⟨"exp", none, none, ["judge_exactness"], ⟨1, "d", true, false, false, 3⟩, none⟩
    (Or.inr ⟨⟨"judge_exactness", by simp⟩, rfl⟩)

/-! ## Decimal rendering of the name counter

`f"{set_name}__{i}"` renders the counter with `Nat.repr`; uniqueness of the
generated names rests on the injectivity of decimal rendering, proved here via
`Nat.digits`. -/

lemma toDigitsCore_eq_digits :
    ∀ (fuel n : Nat) (ds : List Char), 0 < n → n < fuel →
      Nat.toDigitsCore 10 fuel n ds = ((Nat.digits 10 n).map Nat.digitChar).reverse ++ ds := by
  intro fuel
  induction fuel with
  | zero => intro n ds _ hf; omega
  | succ f ih =>
    intro n ds hn _
    have hd : Nat.digits 10 n = n % 10 :: Nat.digits 10 (n / 10) :=
      Nat.digits_def' (by norm_num) hn
    simp only [Nat.toDigitsCore]
    by_cases h0 : n / 10 = 0
    · rw [if_pos h0, hd, h0]
      simp
    · rw [if_neg h0]
      have hn' : 0 < n / 10 := Nat.pos_of_ne_zero h0
      have hlt : n / 10 < f := by
        have h1 : n / 10 < n := Nat.div_lt_self hn (by norm_num)
        omega
      rw [ih (n / 10) (Nat.digitChar (n % 10) :: ds) hn' hlt, hd]
      simp

lemma nat_repr_eq_digits (n : Nat) (hn : 0 < n) :
    Nat.repr n = (((Nat.digits 10 n).map Nat.digitChar).reverse).asString := by
  unfold Nat.repr Nat.toDigits
  rw [toDigitsCore_eq_digits (n + 1) n [] hn (Nat.lt_succ_self n), List.append_nil]

lemma digitChar_inj_lt : ∀ a b : Fin 10, Nat.digitChar a = Nat.digitChar b → a = b := by
  decide

lemma map_digitChar_inj :
    ∀ l1 l2 : List Nat, (∀ x ∈ l1, x < 10) → (∀ x ∈ l2, x < 10) →
      l1.map Nat.digitChar = l2.map Nat.digitChar → l1 = l2 := by
  intro l1
  induction l1 with
  | nil =>
    intro l2 _ _ h
    cases l2 with
    | nil => rfl
    | cons b t2 => simp at h
  | cons a t ih =>
    intro l2 h1 h2 h
    cases l2 with
    | nil => simp at h
    | cons b t2 =>
      simp only [List.map_cons, List.cons.injEq] at h
      have ha : a < 10 := h1 a (by simp)
      have hb : b < 10 := h2 b (by simp)
      have hab : a = b := by
        have := digitChar_inj_lt ⟨a, ha⟩ ⟨b, hb⟩ h.1
        simpa [Fin.ext_iff] using this
      subst hab
      have ht := ih t2 (fun x hx => h1 x (by simp [hx])) (fun x hx => h2 x (by simp [hx])) h.2
      rw [ht]

lemma asString_inj {l1 l2 : List Char} (h : l1.asString = l2.asString) : l1 = l2 := by
  have := congrArg String.data h
  simpa [List.asString] using this

lemma nat_repr_injective : Function.Injective Nat.repr := by
  intro m n h
  by_cases hm : m = 0 <;> by_cases hn : n = 0
  · omega
  · exfalso
    subst hm
    have hn' : 0 < n := Nat.pos_of_ne_zero hn
    rw [nat_repr_eq_digits n hn'] at h
    have h' : (((Nat.digits 10 n).map Nat.digitChar).reverse).asString = ['0'].asString := h.symm
    have hlist : ((Nat.digits 10 n).map Nat.digitChar).reverse = ['0'] := asString_inj h'
    have hmap : (Nat.digits 10 n).map Nat.digitChar = ['0'] := by
      have := congrArg List.reverse hlist
      simpa using this
    have hdig : Nat.digits 10 n = [0] := by
      have hlen : (Nat.digits 10 n).length = 1 := by
        have := congrArg List.length hmap
        simpa using this
      cases hdl : Nat.digits 10 n with
      | nil => rw [hdl] at hlen; simp at hlen
      | cons d t =>
        cases t with
        | nil =>
          rw [hdl] at hmap
          simp only [List.map_cons, List.map_nil, List.cons.injEq] at hmap
          have hdlt : d < 10 := Nat.digits_lt_base (by norm_num) (by rw [hdl]; simp)
          have : (⟨d, hdlt⟩ : Fin 10) = ⟨0, by norm_num⟩ :=
            digitChar_inj_lt _ _ (by simpa using hmap.1)
          simpa [Fin.ext_iff] using this
        | cons d2 t2 => rw [hdl] at hlen; simp at hlen
    have : n = 0 := by
      have := Nat.ofDigits_digits 10 n
      rw [hdig] at this
      simpa [Nat.ofDigits] using this.symm
    exact hn this
  · exfalso
    subst hn
    have hm' : 0 < m := Nat.pos_of_ne_zero hm
    rw [nat_repr_eq_digits m hm'] at h
    have hdata := asString_inj h
    have hlist : ((Nat.digits 10 m).map Nat.digitChar).reverse = ['0'] := by
      rw [hdata]; rfl
    have hmap : (Nat.digits 10 m).map Nat.digitChar = ['0'] := by
      have := congrArg List.reverse hlist
      simpa using this
    have hdig : Nat.digits 10 m = [0] := by
      have hlen : (Nat.digits 10 m).length = 1 := by
        have := congrArg List.length hmap
        simpa using this
      cases hdl : Nat.digits 10 m with
      | nil => rw [hdl] at hlen; simp at hlen
      | cons d t =>
        cases t with
        | nil =>
          rw [hdl] at hmap
          simp only [List.map_cons, List.map_nil, List.cons.injEq] at hmap
          have hdlt : d < 10 := Nat.digits_lt_base (by norm_num) (by rw [hdl]; simp)
          have : (⟨d, hdlt⟩ : Fin 10) = ⟨0, by norm_num⟩ :=
            digitChar_inj_lt _ _ (by simpa using hmap.1)
          simpa [Fin.ext_iff] using this
        | cons d2 t2 => rw [hdl] at hlen; simp at hlen
    have : m = 0 := by
      have := Nat.ofDigits_digits 10 m
      rw [hdig] at this
      simpa [Nat.ofDigits] using this.symm
    exact hm this
  · have hm' : 0 < m := Nat.pos_of_ne_zero hm
    have hn' : 0 < n := Nat.pos_of_ne_zero hn
    rw [nat_repr_eq_digits m hm', nat_repr_eq_digits n hn'] at h
    have hdata := asString_inj h
    have hrev := congrArg List.reverse hdata
    simp only [List.reverse_reverse] at hrev
    have hdig : Nat.digits 10 m = Nat.digits 10 n :=
      map_digitChar_inj _ _ (fun x hx => Nat.digits_lt_base (by norm_num) hx)
        (fun x hx => Nat.digits_lt_base (by norm_num) hx) hrev
    exact Nat.digits_inj_iff.mp hdig

lemma string_append_cancel_left {a b c : String} (h : a ++ b = a ++ c) : b = c := by
  have hd := congrArg String.data h
  simp only [String.data_append] at hd
  exact String.ext (List.append_cancel_left hd)

lemma expName_inj (setName : String) : Function.Injective (expName setName) := by
  intro i j h
  have h2 : Nat.repr i = Nat.repr j := by
    have : (setName ++ "__") ++ Nat.repr i = (setName ++ "__") ++ Nat.repr j := by
      simpa [expName, String.append_assoc] using h
    exact string_append_cancel_left this
  exact nat_repr_injective h2

lemma cv_inner_foldl {P : Type} (setName : String) (p : P) :
    ∀ (L : List Nat) (i : Nat) (acc : List (String × P)),
      L.foldl (fun st2 _ => (st2.1 + 1, st2.2 ++ [(expName setName st2.1, p)])) (i, acc) =
        (i + L.length, acc ++ (List.range L.length).map (fun j => (expName setName (i + j), p))) := by
  intro L
  induction L with
  | nil => intro i acc; simp
  | cons x t ih =>
    intro i acc
    simp only [List.foldl_cons]
    rw [ih]
    have harith : ∀ j : Nat, i + 1 + j = i + (j + 1) := by omega
    simp [List.range_succ_eq_map, List.map_map, Function.comp, harith, List.length_cons]

lemma cv_outer_foldl {P : Type} (setName : String) (rep : Nat) :
    ∀ (pts : List P) (i : Nat) (acc : List (String × P)),
      pts.foldl
        (fun st p =>
          (List.range rep).foldl
            (fun st2 _ => (st2.1 + 1, st2.2 ++ [(expName setName st2.1, p)])) st)
        (i, acc) =
        (i + pts.length * rep, acc ++ gridSpec setName rep pts i) := by
  intro pts
  induction pts with
  | nil => intro i acc; simp [gridSpec]
  | cons p t ih =>
    intro i acc
    simp only [List.foldl_cons]
    rw [cv_inner_foldl setName p (List.range rep) i acc, List.length_range, ih]
    refine Prod.ext ?_ ?_
    · simp [List.length_cons]
      ring
    · simp [gridSpec, List.append_assoc]

lemma gridSpec_fst {P : Type} (setName : String) (rep : Nat) :
    ∀ (pts : List P) (i : Nat),
      (gridSpec setName rep pts i).map Prod.fst =
        (List.range (pts.length * rep)).map (fun j => expName setName (i + j)) := by
  intro pts
  induction pts with
  | nil => intro i; simp [gridSpec]
  | cons p t ih =>
    intro i
    have hsplit : (t.length + 1) * rep = rep + t.length * rep := by ring
    rw [gridSpec, List.map_append, ih, List.length_cons, hsplit, List.range_add,
      List.map_append]
    congr 1
    · rw [List.map_map]
      rfl
    · rw [List.map_map]
      apply List.map_congr_left
      intro j _
      simp only [Function.comp_apply]
      congr 1
      omega

lemma gridSpec_snd {P : Type} (setName : String) (rep : Nat) :
    ∀ (pts : List P) (i : Nat),
      (gridSpec setName rep pts i).map Prod.snd =
        pts.flatMap (fun p => List.replicate rep p) := by
  intro pts
  induction pts with
  | nil => intro i; simp [gridSpec]
  | cons p t ih =>
    intro i
    rw [gridSpec, List.map_append, ih, List.flatMap_cons]
    congr 1
    rw [List.map_map]
    have hc : (Prod.snd ∘ fun j : Nat => (expName setName (i + j), p)) = fun _ => p := rfl
    rw [hc, List.map_const', List.length_range]

lemma build_param_grid_length {V : Type} (common : List (String × V)) :
    ∀ grid : List (String × List V),
      (build_param_grid common grid).length =
        (grid.map (fun kv => kv.2.length)).prod := by
  intro grid
  induction grid with
  | nil => simp [build_param_grid]
  | cons kv t ih =>
    simp only [build_param_grid, List.foldr_cons] at ih ⊢
    rw [List.length_flatMap]
    simp only [Function.comp_def, List.length_map, ih]
    rw [List.map_const', List.sum_replicate, smul_eq_mul, List.map_cons, List.prod_cons]

/-- C5: an experiment set created from a grid with common parameters, grid
parameters G and integer repeat contains exactly |G| · repeat experiments —
one per Cartesian-product point, duplicated repeat times — named
`{set_name}__{i}` for i = 0 .. |G|·repeat − 1, all names unique within the
set; |G| is the product of the grid value-list lengths. -/
theorem c5_grid_construction {V : Type} (setName : String)
    (common : List (String × V)) (grid : List (String × List V)) (rep : Nat) :
    (experimentset_cv_table_init setName common grid rep).length =
      (build_param_grid common grid).length * rep ∧
    (experimentset_cv_table_init setName common grid rep).map Prod.fst =
      (List.range ((build_param_grid common grid).length * rep)).map
        (fun i => setName ++ "__" ++ Nat.repr i) ∧
    ((experimentset_cv_table_init setName common grid rep).map Prod.fst).Nodup ∧
    (experimentset_cv_table_init setName common grid rep).map Prod.snd =
      (build_param_grid common grid).flatMap (fun p => List.replicate rep p) ∧
    (build_param_grid common grid).length = (grid.map (fun kv => kv.2.length)).prod := by
  have hfold := cv_outer_foldl setName rep (build_param_grid common grid) 0 []
  have hres : experimentset_cv_table_init setName common grid rep =
      gridSpec setName rep (build_param_grid common grid) 0 := by
    simp only [experimentset_cv_table_init, cv_experiments, hfold]
    simp
  have hfst := gridSpec_fst setName rep (build_param_grid common grid) 0
  have hsnd := gridSpec_snd setName rep (build_param_grid common grid) 0
  simp only [Nat.zero_add] at hfst
  refine ⟨?_, ?_, ?_, ?_, build_param_grid_length common grid⟩
  · rw [hres]
    have := congrArg List.length hfst
    simpa using this
  · rw [hres, hfst]
    apply List.map_congr_left
    intro j _
    rfl
  · rw [hres, hfst]
    exact (List.nodup_range _).map (expName_inj setName)
  · rw [hres, hsnd]

/-- C6: whenever an update sets an experiment's `experiment_status` to
finished, every Result owned by that experiment has `metric_status` finished
afterwards, regardless of its `num_try`/`num_success` counters. -/
theorem c6_finished_cascades_results (exp : Experiment) (p : ExperimentUpdateS)
    (h : p.experiment_status = some ExperimentStatus.finished) :
    ∀ r ∈ (update_experiment exp p).results, r.metric_status = MetricStatus.finished := by
  intro r hr
  rcases hn : p.name with _ | v1 <;> rcases hm : p.readme with _ | v2 <;>
    rcases ht : p.num_try with _ | v3 <;> rcases hs2 : p.num_success with _ | v4 <;>
      simp [update_experiment, h, hn, hm, ht, hs2] at hr <;>
      (obtain ⟨r0, hmem, hr0⟩ := hr; rw [← hr0])

/-- Witness for C6: a patch setting status to finished turns a pending Result
finished, even with `num_try ≠ num_success`. -/
theorem c6_witness :
    (⟨7, 1, "m", MetricStatus.finished, 3, 1, []⟩ : ResultRow).metric_status =
      MetricStatus.finished :=
  c6_finished_cascades_results
    ⟨1, "e", none, none, 1, ⟨1, "d", true, false, false, 3⟩, none,
      ExperimentStatus.running_metrics, 3, 2,
      [⟨7, 1, "m", MetricStatus.running, 3, 1, []⟩]⟩
    ⟨none, none, some ExperimentStatus.finished, none, none⟩ rfl
    ⟨7, 1, "m", MetricStatus.finished, 3, 1, []⟩ (by decide)

/-- C10: in every update operation, a patch field that is `None` leaves the
corresponding stored field unchanged and a non-None patch field overwrites
it; consequently nullable fields can never be reset to null by an update. -/
theorem c10_update_frame (d : Dataset) (pd : DatasetUpdateS) (r : ResultRow)
    (pr : ResultUpdateS) (e : Experiment) (pe : ExperimentUpdateS)
    (s : ExperimentSetRow) (ps : ExperimentSetUpdateS) :
    update_dataset d pd =
      { id := pd.id.getD d.id, name := pd.name.getD d.name,
        has_query := pd.has_query.getD d.has_query,
        has_output := pd.has_output.getD d.has_output,
        has_output_true := pd.has_output_true.getD d.has_output_true,
        size := pd.size.getD d.size } ∧
    update_result r pr =
      { r with metric_name := pr.metric_name.getD r.metric_name,
               metric_status := pr.metric_status.getD r.metric_status,
               num_try := pr.num_try.getD r.num_try,
               num_success := pr.num_success.getD r.num_success } ∧
    (update_experiment e pe).name = pe.name.getD e.name ∧
    (update_experiment e pe).readme = ((pe.readme.map some).getD e.readme) ∧
    (update_experiment e pe).experiment_status =
      pe.experiment_status.getD e.experiment_status ∧
    (update_experiment e pe).num_try = pe.num_try.getD e.num_try ∧
    (update_experiment e pe).num_success = pe.num_success.getD e.num_success ∧
    ((update_experiment e pe).readme = none → e.readme = none) ∧
    update_experimentset s ps =
      { s with name := ps.name.getD s.name,
               readme := (ps.readme.map some).getD s.readme } := by
  refine ⟨?_, ?_, ?_, ?_, ?_, ?_, ?_, ?_, ?_⟩
  · obtain ⟨i1, n1, q1, o1, t1, s1⟩ := pd
    rcases i1 with _ | v1 <;> rcases n1 with _ | v2 <;>
      rcases q1 with _ | v3 <;> rcases o1 with _ | v4 <;>
      rcases t1 with _ | v5 <;> rcases s1 with _ | v6 <;> rfl
  · obtain ⟨m1, s1, t1, u1⟩ := pr
    rcases m1 with _ | v1 <;> rcases s1 with _ | v2 <;>
      rcases t1 with _ | v3 <;> rcases u1 with _ | v4 <;> rfl
  · rcases hs : pe.experiment_status with _ | v0
    all_goals
      rcases hn : pe.name with _ | v1 <;> rcases hm : pe.readme with _ | v2 <;>
        rcases ht : pe.num_try with _ | v3 <;> rcases hv : pe.num_success with _ | v4 <;>
        simp [update_experiment, hs, hn, hm, ht, hv, apply_ite]
  · rcases hs : pe.experiment_status with _ | v0
    all_goals
      rcases hn : pe.name with _ | v1 <;> rcases hm : pe.readme with _ | v2 <;>
        rcases ht : pe.num_try with _ | v3 <;> rcases hv : pe.num_success with _ | v4 <;>
        simp [update_experiment, hs, hn, hm, ht, hv, apply_ite]
  · rcases hs : pe.experiment_status with _ | v0
    all_goals
      rcases hn : pe.name with _ | v1 <;> rcases hm : pe.readme with _ | v2 <;>
        rcases ht : pe.num_try with _ | v3 <;> rcases hv : pe.num_success with _ | v4 <;>
        simp [update_experiment, hs, hn, hm, ht, hv, apply_ite]
  · rcases hs : pe.experiment_status with _ | v0
    all_goals
      rcases hn : pe.name with _ | v1 <;> rcases hm : pe.readme with _ | v2 <;>
        rcases ht : pe.num_try with _ | v3 <;> rcases hv : pe.num_success with _ | v4 <;>
        simp [update_experiment, hs, hn, hm, ht, hv, apply_ite]
  · rcases hs : pe.experiment_status with _ | v0
    all_goals
      rcases hn : pe.name with _ | v1 <;> rcases hm : pe.readme with _ | v2 <;>
        rcases ht : pe.num_try with _ | v3 <;> rcases hv : pe.num_success with _ | v4 <;>
        simp [update_experiment, hs, hn, hm, ht, hv, apply_ite]
  · intro hnone
    rcases he : e.readme with _ | w
    · rfl
    · exfalso
      rcases hs : pe.experiment_status with _ | v0 <;>
        rcases hrm : pe.readme with _ | v2 <;>
          rcases hn : pe.name with _ | v1 <;>
          rcases ht : pe.num_try with _ | v3 <;> rcases hv : pe.num_success with _ | v4 <;>
          simp [update_experiment, hs, hrm, hn, ht, hv, he, apply_ite] at hnone
  · obtain ⟨n1, r1⟩ := ps
    rcases n1 with _ | v1 <;> rcases r1 with _ | v2 <;> rfl

/-- Witness for C10: a concrete update with a None readme leaves the stored
readme untouched (here: still unset). -/
theorem c10_witness :
    (update_experiment
        ⟨1, "e", none, none, 1, ⟨1, "d", true, false, false, 3⟩, none,
          ExperimentStatus.pending, 0, 0, []⟩
        ⟨some "e2", none, none, none, none⟩).readme = none →
      (none : Option String) = none := by
  intro hx
  exact (c10_update_frame ⟨1, "d", true, false, false, 3⟩ ⟨none, none, none, none, none, none⟩
      ⟨7, 1, "m", MetricStatus.pending, 0, 0, []⟩ ⟨none, none, none, none⟩
      ⟨1, "e", none, none, 1, ⟨1, "d", true, false, false, 3⟩, none,
        ExperimentStatus.pending, 0, 0, []⟩
      ⟨some "e2", none, none, none, none⟩
      ⟨1, "s", none, []⟩ ⟨none, none⟩).2.2.2.2.2.2.2.1 hx

/-- C7: when N > 0 experiments reference the dataset, `remove_dataset` raises
a schema error whose message carries N and the store — in particular the
dataset row — is left unchanged; the deletion path is reached only when no
experiment references the dataset. -/
theorem c7_remove_dataset_guard (store : Store) (dataset_id : Nat)
    (hN : 0 < (store.experiments.filter (fun e => e.dataset_id = dataset_id)).length) :
    run_remove_dataset store dataset_id =
      (store,
        Except.error (linkedDatasetMsg
          ((store.experiments.filter (fun e => e.dataset_id = dataset_id)).length))) ∧
    ∀ store2 b, remove_dataset store dataset_id = Except.ok (store2, b) →
      (store.experiments.filter (fun e => e.dataset_id = dataset_id)).length = 0 := by
  constructor
  · unfold run_remove_dataset remove_dataset
    rw [if_pos hN]
  · intro store2 b hok
    by_contra hne
    have hpos : 0 < (store.experiments.filter (fun e => e.dataset_id = dataset_id)).length :=
      Nat.pos_of_ne_zero hne
    unfold remove_dataset at hok
    rw [if_pos hpos] at hok
    exact Except.noConfusion hok

/-- Witness for C7: a store whose single experiment references dataset 1;
removal is rejected with the count 1 in the message and the store intact. -/
theorem c7_witness :
    run_remove_dataset
        ⟨[⟨1, "d", true, false, false, 3⟩],
         [⟨1, "e", none, none, 1, ⟨1, "d", true, false, false, 3⟩, none,
            ExperimentStatus.pending, 0, 0, []⟩], 2⟩ 1 =
      (⟨[⟨1, "d", true, false, false, 3⟩],
         [⟨1, "e", none, none, 1, ⟨1, "d", true, false, false, 3⟩, none,
            ExperimentStatus.pending, 0, 0, []⟩], 2⟩,
       Except.error (linkedDatasetMsg 1)) :=
  (c7_remove_dataset_guard
      ⟨[⟨1, "d", true, false, false, 3⟩],
       [⟨1, "e", none, none, 1, ⟨1, "d", true, false, false, 3⟩, none,
          ExperimentStatus.pending, 0, 0, []⟩], 2⟩ 1 (by decide)).1

lemma splitUnderscore_no_sep : ∀ l : List Char, '_' ∉ l → splitUnderscore l = [l] := by
  intro l
  induction l with
  | nil => intro _; rfl
  | cons c t ih =>
    intro h
    have hc : c ≠ '_' := by
      intro hh
      exact h (by rw [hh]; exact List.mem_cons_self _ _)
    have ht : '_' ∉ t := fun hh => h (List.mem_cons_of_mem c hh)
    rw [splitUnderscore.eq_def]
    split
    · rename_i heq
      simp at heq
    · first
      | exact absurd rfl hc
      | (rename_i heq
         injection heq with h1 h2
         exact absurd h1 hc)
    · rename_i heq
      injection heq with h1 h2
      subst h1
      subst h2
      rw [ih ht]

lemma splitUnderscore_sep : ∀ (l d : List Char), '_' ∉ l →
    splitUnderscore (l ++ '_' :: '_' :: d) = l :: splitUnderscore d := by
  intro l
  induction l with
  | nil => intro d _; rfl
  | cons c t ih =>
    intro d h
    have hc : c ≠ '_' := by
      intro hh
      exact h (by rw [hh]; exact List.mem_cons_self _ _)
    have ht : '_' ∉ t := fun hh => h (List.mem_cons_of_mem c hh)
    show splitUnderscore (c :: (t ++ '_' :: '_' :: d)) = (c :: t) :: splitUnderscore d
    rw [splitUnderscore.eq_def]
    split
    · rename_i heq
      simp at heq
    · first
      | exact absurd rfl hc
      | (rename_i heq
         injection heq with h1 h2
         exact absurd h1 hc)
    · rename_i heq
      injection heq with h1 h2
      subst h1
      subst h2
      rw [ih d ht]

lemma repr_data_pos (n : Nat) (hn : 0 < n) :
    (Nat.repr n).data = ((Nat.digits 10 n).map Nat.digitChar).reverse := by
  rw [nat_repr_eq_digits n hn]
  rfl

lemma digitChar_facts : ∀ d : Fin 10,
    (Nat.digitChar d).isDigit = true ∧ Nat.digitChar d ≠ '_' ∧
      (Nat.digitChar d).toNat - '0'.toNat = d := by decide

lemma repr_data_chars (n : Nat) : ∀ c ∈ (Nat.repr n).data, c.isDigit = true ∧ c ≠ '_' := by
  by_cases hn : n = 0
  · subst hn; decide
  · intro c hc
    rw [repr_data_pos n (Nat.pos_of_ne_zero hn), List.mem_reverse] at hc
    obtain ⟨d, hd, hdc⟩ := List.mem_map.mp hc
    have hdlt : d < 10 := Nat.digits_lt_base (by norm_num) hd
    have hfacts := digitChar_facts ⟨d, hdlt⟩
    rw [← hdc]
    exact ⟨hfacts.1, hfacts.2.1⟩

lemma repr_data_ne_nil (n : Nat) : (Nat.repr n).data ≠ [] := by
  by_cases hn : n = 0
  · subst hn; decide
  · rw [repr_data_pos n (Nat.pos_of_ne_zero hn)]
    simp [Nat.digits_ne_nil_iff_ne_zero.mpr hn]

lemma foldr_digitChar_val (L : List Nat) (hL : ∀ d ∈ L, d < 10) :
    L.foldr (fun d acc => acc * 10 + ((Nat.digitChar d).toNat - '0'.toNat)) 0 =
      Nat.ofDigits 10 L := by
  induction L with
  | nil => simp [Nat.ofDigits]
  | cons d t ih =>
    rw [List.foldr_cons, Nat.ofDigits_cons,
      ih (fun x hx => hL x (List.mem_cons_of_mem d hx)),
      (digitChar_facts ⟨d, hL d (List.mem_cons_self d t)⟩).2.2]
    push_cast
    ring

lemma decDigitsVal_repr (n : Nat) : decDigitsVal (Nat.repr n).data = n := by
  by_cases hn : n = 0
  · subst hn; decide
  · rw [repr_data_pos n (Nat.pos_of_ne_zero hn)]
    unfold decDigitsVal
    rw [List.foldl_reverse, List.foldr_map,
      foldr_digitChar_val _ (fun d hd => Nat.digits_lt_base (by norm_num) hd),
      Nat.ofDigits_digits]

lemma splitName_sep (b d : String) (hb : '_' ∉ b.data) (hd : '_' ∉ d.data) :
    splitName (b ++ "__" ++ d) = [b, d] := by
  unfold splitName
  have hdata : (b ++ "__" ++ d).data = b.data ++ '_' :: '_' :: d.data := by
    rw [String.data_append, String.data_append, List.append_assoc]
    rfl
  rw [hdata, splitUnderscore_sep b.data d.data hb, splitUnderscore_no_sep d.data hd]
  rfl

lemma nameSuffix_sep (b : String) (m : Nat) (hb : '_' ∉ b.data) :
    nameSuffix (b ++ "__" ++ Nat.repr m) = some m := by
  have hd : '_' ∉ (Nat.repr m).data := fun hmem => (repr_data_chars m _ hmem).2 rfl
  have hne : Nat.repr m ≠ "" := by
    intro hh
    exact repr_data_ne_nil m (congrArg String.data hh)
  have hdig : (Nat.repr m).data.all Char.isDigit = true := by
    rw [List.all_eq_true]
    intro c hc
    exact (repr_data_chars m c hc).1
  have hlast : ([b, Nat.repr m] : List String).getLast! = Nat.repr m := rfl
  simp only [nameSuffix]
  rw [splitName_sep b (Nat.repr m) hb hd, hlast]
  rw [if_pos ⟨by norm_num, hne, hdig⟩, decDigitsVal_repr]

lemma bumpExperimentName_sep (setName b : String) (N j : Nat) (hb : '_' ∉ b.data)
    (hbn : b ≠ "None") :
    bumpExperimentName setName N (b ++ "__" ++ Nat.repr j) =
      b ++ "__" ++ Nat.repr (j + N) := by
  have hd : '_' ∉ (Nat.repr j).data := fun hmem => (repr_data_chars j _ hmem).2 rfl
  have hne : Nat.repr j ≠ "" := by
    intro hh
    exact repr_data_ne_nil j (congrArg String.data hh)
  have hdig : (Nat.repr j).data.all Char.isDigit = true := by
    rw [List.all_eq_true]
    intro c hc
    exact (repr_data_chars j c hc).1
  have hlast : ([b, Nat.repr j] : List String).getLast! = Nat.repr j := rfl
  simp only [bumpExperimentName]
  rw [splitName_sep b (Nat.repr j) hb hd, hlast]
  rw [if_pos ⟨by norm_num, hne, hdig⟩, decDigitsVal_repr]
  rw [if_neg (by simpa using hbn)]
  rfl

/-- C8 counterexample: with existing experiments `set__0` and `set__5` (the
suffixes have a gap) and an appended experiment `set__3`, the bump produces
`set__5`, which collides with a name already in the set. -/
theorem c8_counterexample :
    bumpExperimentName "set" 2 "set__3" = "set__5" ∧
    "set__5" ∈ ["set__0", "set__5"] ∧
    patch_experimentset_names "set" ["set__0", "set__5"] ["set__3"] =
      ["set__0", "set__5", "set__5"] ∧
    ¬(["set__0", "set__5", "set__5"] : List String).Nodup := by
  refine ⟨by decide, by decide, by decide, by decide⟩

/-- C8 (amended): the rename bumps the trailing numeric suffix by the count
of experiments already in the set (`suffix + len(existing)`), so for an
appended name `b__j` (base free of underscores and distinct from the literal
`None`) the renamed name is `b__(j+N)`; whenever every numerically-suffixed
existing name has suffix smaller than that count — in particular for the
gapless layout 0..N−1 — the renamed name collides with no name already in
the set. With suffix gaps the collision of the counterexample is possible. -/
theorem c8_suffix_bump_no_collision (setName b : String) (existing : List String)
    (j : Nat) (hb : '_' ∉ b.data) (hbn : b ≠ "None")
    (hex : ∀ e ∈ existing, ∀ k, nameSuffix e = some k → k < existing.length) :
    bumpExperimentName setName existing.length (b ++ "__" ++ Nat.repr j) ∉ existing := by
  intro hmem
  have hsuf : nameSuffix (bumpExperimentName setName existing.length
      (b ++ "__" ++ Nat.repr j)) = some (j + existing.length) := by
    rw [bumpExperimentName_sep setName b existing.length j hb hbn, nameSuffix_sep b _ hb]
  have hk := hex _ hmem _ hsuf
  omega

/-- Witness for C8 (amended): existing suffixes 0 and 1 (no gap, both below
the count 2); appending `set__0` yields `set__2`, which is fresh. -/
theorem c8_witness :
    bumpExperimentName "set" (["set__0", "set__1"] : List String).length
        ("set" ++ "__" ++ Nat.repr 0) ∉ (["set__0", "set__1"] : List String) :=
  c8_suffix_bump_no_collision "set" "set" ["set__0", "set__1"] 0
    (by decide) (by decide) (by decide)

/-- C9 (amended): `crud.get_leaderboard` accepts metric_name, dataset_name
and limit, and when a truthy (non-None, nonempty) dataset name is supplied
every returned entry belongs to an experiment whose dataset has that name. -/
theorem c9_dataset_filter (store : Store) (metric_name dn : String) (limit : Nat)
    (hdn : dn ≠ "") :
    ∀ entry ∈ (get_leaderboard store metric_name (some dn) limit).entries,
      entry.dataset_name = dn := by
  intro entry hmem
  simp only [get_leaderboard] at hmem
  rw [if_neg hdn] at hmem
  have h1 := List.take_subset _ _ hmem
  have h2 := (List.perm_insertionSort lbRel _).subset h1
  have h3 := List.mem_filter.mp h2
  simpa using h3.2

/-- C9 counterexample: the HTTP endpoint takes no dataset_name parameter —
it always calls the crud with `None` — so its output is not confined to any
single dataset: on `lbStore` it returns entries for both "A" and "B". -/
theorem c9_counterexample :
    ¬∃ d : String, ∀ entry ∈ (read_leaderboard lbStore "m" 100).entries,
      entry.dataset_name = d := by
  rintro ⟨d, h⟩
  have hA : ∃ e ∈ (read_leaderboard lbStore "m" 100).entries, e.dataset_name = "A" := by
    decide
  have hB : ∃ e ∈ (read_leaderboard lbStore "m" 100).entries, e.dataset_name = "B" := by
    decide
  obtain ⟨eA, hmA, hdA⟩ := hA
  obtain ⟨eB, hmB, hdB⟩ := hB
  have h1 := h eA hmA
  have h2 := h eB hmB
  rw [hdA] at h1
  rw [hdB] at h2
  exact absurd (h1.trans h2.symm) (by decide)

/-- Witness for C9 (amended): filtering `lbStore` by dataset "A" keeps the
"A" entry, and the theorem certifies its dataset name. -/
theorem c9_witness :
    (⟨1, "m1", "A", some 5⟩ : LeaderboardEntry) ∈
      (get_leaderboard lbStore "m" (some "A") 100).entries ∧
    (⟨1, "m1", "A", some 5⟩ : LeaderboardEntry).dataset_name = "A" :=
  ⟨by decide,
   c9_dataset_filter lbStore "m" "A" 100 (by decide) ⟨1, "m1", "A", some 5⟩ (by decide)⟩

end EvalAP

